import Mathlib

/-!
Shallow embedding of `src/tray.py` (UxPlay Windows tray controller).

The program is a thin tray utility: it persists a small JSON preference
record, locates the UxPlay window(s) by case-insensitive title-substring
match (with an optional psutil process-name fallback), and applies or
restores window style bits, remembering each window's original style.

Modelling conventions:
- Window handles are `Nat`; window style bitmasks are `Nat` (Python's
  arbitrary-precision non-negative ints; `style & ~mask` is modelled by
  `pyAndNot`).
- The OS window list and process list form an `Env` record; the mutable
  module state (`_original_styles`, plus the current style of every
  window) forms a `TrayState` record.  Every OS call the program issues
  is recorded in an operation log, so "performs no style write" and
  "still processes the next handle" are statements about the log.
- Python exceptions that the source catches inside a function make that
  function total here; `_set_style` can fail (its except-chain ends in
  `raise`), which is modelled by a success flag consulted by callers'
  except blocks.
-/

namespace Tray

/-! ### win32con style-bit constants (values fixed by the Windows API) -/

def WS_CAPTION : Nat := 0x00C00000
def WS_THICKFRAME : Nat := 0x00040000
def WS_MINIMIZEBOX : Nat := 0x00020000
def WS_MAXIMIZEBOX : Nat := 0x00010000
def WS_SYSMENU : Nat := 0x00080000

/-- The mask cleared by `make_borderless`:
`WS_CAPTION | WS_THICKFRAME | WS_MINIMIZEBOX | WS_MAXIMIZEBOX | WS_SYSMENU`. -/
def STYLE_CLEAR_MASK : Nat :=
  WS_CAPTION ||| WS_THICKFRAME ||| WS_MINIMIZEBOX ||| WS_MAXIMIZEBOX ||| WS_SYSMENU

/-- Python's `a & ~b` on non-negative arbitrary-precision integers:
clear in `a` every bit set in `b`.  Since `a &&& b` has a subset of the
bits of `a`, this equals `a ^^^ (a &&& b)`. -/
def pyAndNot (a b : Nat) : Nat := a ^^^ (a &&& b)

/-! ### Configuration record (`DEFAULT_CFG`, `tray_config.json` shape) -/

/-- The documented preference-record shape. -/
structure Cfg where
  borderless : Bool
  always_on_top : Bool
  title_substrings : List String
deriving DecidableEq, Repr

/-- `DEFAULT_CFG` from the source. -/
def DEFAULT_CFG : Cfg :=
  { borderless := false
    always_on_top := false
    title_substrings := ["Direct3D11 renderer"] }

/-! ### OS environment: windows and processes -/

/-- A top-level window as the OS reports it: handle, title text
(`GetWindowText`), visibility (`IsWindowVisible`), and owning process id
(`GetWindowThreadProcessId`). -/
structure Window where
  hwnd : Nat
  title : String
  visible : Bool
  pid : Nat
deriving DecidableEq, Repr

/-- A process as psutil reports it (`pid`, `name`). -/
structure Process where
  pid : Nat
  name : String
deriving DecidableEq, Repr

/-- The OS environment a scan observes.  `procs = none` models psutil
being unavailable (the import failed, so the fallback is disabled);
`setStyleOk h = false` models both `SetWindowLong` variants raising for
handle `h`. -/
structure Env where
  windows : List Window
  procs : Option (List Process)
  setStyleOk : Nat → Bool

/-- Python's `str.lower()` (modelled character-wise; the titles and
names involved are ASCII). -/
def strLower (s : String) : String := ⟨s.data.map Char.toLower⟩

/-- Python's `sub in s` substring test on strings. -/
def strContains (s sub : String) : Bool :=
  (List.range (s.data.length + 1)).any (fun i => sub.data.isPrefixOf (s.data.drop i))

/-! ### Window detection (`enum_visible_windows`, `find_uxplay_windows`) -/

/-- `enum_visible_windows`: visible top-level windows with a non-empty
title, as `(hwnd, title)` pairs in enumeration order. -/
def enum_visible_windows (env : Env) : List (Nat × String) :=
  (env.windows.filter (fun w => w.visible && !w.title.isEmpty)).map
    (fun w => (w.hwnd, w.title))

/-- The substring list the scan uses:
`[s.lower() for s in cfg.get("title_substrings", []) if s]`. -/
def activeSubstrs (cfg : Cfg) : List String :=
  (cfg.title_substrings.filter (fun s => !s.isEmpty)).map strLower

/-- The primary scan: handles of visible titled windows whose lowercased
title contains any configured (lowercased, non-empty) substring. -/
def primary_matches (cfg : Cfg) (env : Env) : List Nat :=
  ((enum_visible_windows env).filter
    (fun p => (activeSubstrs cfg).any (fun sub => strContains (strLower p.2) sub))).map
    (fun p => p.1)

/-- `win32gui.GetWindowText` for a bare handle: the title of the first
window with that handle, `""` if none. -/
def getWindowText (env : Env) (h : Nat) : String :=
  match env.windows.find? (fun w => w.hwnd == h) with
  | some w => w.title
  | none => ""

/-- One iteration of the fallback loop body: if the process name matches
a UxPlay executable name, enumerate its visible windows and keep those
with a non-empty title. -/
def fallback_for_proc (env : Env) (p : Process) : List Nat :=
  if strLower p.name = "uxplay.exe" ∨ strLower p.name = "uxplay" then
    let acc := (env.windows.filter (fun w => w.pid == p.pid && w.visible)).map
      (fun w => w.hwnd)
    acc.filter (fun h => !(getWindowText env h).isEmpty)
  else []

/-- `list(dict.fromkeys(l))`: de-duplicate keeping first occurrences
(`seen` is the set of keys already in the dict). -/
def dedupeAux (seen : List Nat) : List Nat → List Nat
  | [] => []
  | h :: t => if seen.contains h then dedupeAux seen t else h :: dedupeAux (h :: seen) t

def dedupe (l : List Nat) : List Nat := dedupeAux [] l

/-- `find_uxplay_windows`: primary title-substring scan; if it yields
nothing and psutil is available, fall back to windows owned by processes
named `uxplay.exe`/`uxplay`; de-duplicate. -/
def find_uxplay_windows (cfg : Cfg) (env : Env) : List Nat :=
  let ms := primary_matches cfg env
  let ms2 :=
    if ms.isEmpty then
      match env.procs with
      | some ps => ms ++ ps.flatMap (fallback_for_proc env)
      | none => ms
    else ms
  dedupe ms2

/-! ### Style manipulation (`_original_styles`, `_get_style`, `_set_style`,
`make_borderless`, `restore_style`, `set_topmost`) -/

/-- An OS call the program issues (used for the operation log). -/
inductive Op where
  | getStyleOp (h : Nat)
  | setStyleOp (h : Nat) (v : Nat)
  | framePosOp (h : Nat)
  | topmostOp (h : Nat) (enable : Bool)
deriving DecidableEq, Repr

/-- Mutable program state: the current style bitmask of every window
(`none` means both `GetWindowLong` variants raise for that handle), the
module-level `_original_styles` dict (association list, unique keys by
construction), and the log of OS calls issued so far. -/
structure TrayState where
  styles : Nat → Option Nat
  origStyles : List (Nat × Nat)
  log : List Op

/-- `_get_style`: read the current style; `none` when the OS calls raise
(both attempts fail).  The OS call is logged. -/
def getStyle (st : TrayState) (h : Nat) : Option Nat × TrayState :=
  (st.styles h, { st with log := st.log ++ [Op.getStyleOp h] })

/-- `_set_style`: write the style, then force a non-client redraw with
`SetWindowPos(..., SWP_NOMOVE | SWP_NOSIZE | SWP_NOZORDER |
SWP_FRAMECHANGED)` (whose own failure is swallowed).  If both
`SetWindowLong` variants raise, the exception propagates to the caller:
the returned flag is `false` and no write or redraw happens. -/
def setStyle (env : Env) (st : TrayState) (h v : Nat) : TrayState × Bool :=
  if env.setStyleOk h then
    ({ st with
        styles := fun k => if k = h then some v else st.styles k
        log := st.log ++ [Op.setStyleOp h v, Op.framePosOp h] }, true)
  else
    (st, false)

/-- `make_borderless`: read the style (return on failure), record the
original on first touch, clear `STYLE_CLEAR_MASK`, write.  The whole
body is inside try/except, so a `_set_style` failure is swallowed after
its partial effects. -/
def make_borderless (env : Env) (st : TrayState) (h : Nat) : TrayState :=
  let read := getStyle st h
  match read.1 with
  | none => read.2
  | some style =>
    let st1 := read.2
    let st2 :=
      if (st1.origStyles.lookup h).isNone then
        { st1 with origStyles := (h, style) :: st1.origStyles }
      else st1
    (setStyle env st2 h (pyAndNot style STYLE_CLEAR_MASK)).1

/-- `restore_style`: if an original is recorded, write it back and
delete the record.  A `_set_style` failure is swallowed and, because the
exception skips the `del`, leaves the record in place. -/
def restore_style (env : Env) (st : TrayState) (h : Nat) : TrayState :=
  match st.origStyles.lookup h with
  | none => st
  | some orig =>
    let res := setStyle env st h orig
    if res.2 then
      { res.1 with origStyles := res.1.origStyles.eraseP (fun p => p.1 == h) }
    else res.1

/-- `set_topmost`: one `SetWindowPos` call moving the window to the
topmost or non-topmost band; any failure is swallowed. -/
def set_topmost (st : TrayState) (h : Nat) (enable : Bool) : TrayState :=
  { st with log := st.log ++ [Op.topmostOp h enable] }

/-! ### Re-apply cycle (`apply_settings_once`) -/

/-- The per-handle body of `apply_settings_once`'s loop.  Its Python
counterpart sits inside a per-handle try/except, but every callee
already swallows its own exceptions, so the body is total. -/
def apply_handle (env : Env) (cfg : Cfg) (st : TrayState) (h : Nat) : TrayState :=
  let st1 := if cfg.borderless then make_borderless env st h else restore_style env st h
  set_topmost st1 h cfg.always_on_top

/-- `apply_settings_once`: locate the target windows; if none, return
immediately; otherwise run the per-handle body on each handle in
order. -/
def apply_settings_once (env : Env) (cfg : Cfg) (st : TrayState) : TrayState :=
  let hwnds := find_uxplay_windows cfg env
  if hwnds.isEmpty then st
  else hwnds.foldl (apply_handle env cfg) st

/-! ### Preference store (`load_config`, `save_config`)

The file holds JSON text; `json.dumps`/`json.loads` are the external
json library, taken as a faithful serialization pair, so the file state
is modelled up to parsing: either the file is missing, or reading or
parsing it raises, or it parses to a JSON value. -/

/-- JSON values as Python's json module produces them (the subset with
the shapes this program can ever write or read back). -/
inductive JVal where
  | jNull
  | jBool (b : Bool)
  | jNum (n : Int)
  | jStr (s : String)
  | jArr (xs : List JVal)
  | jObj (fields : List (String × JVal))
deriving BEq, Repr

/-- State of `tray_config.json`: missing, present but unreadable or
unparseable (read/parse raises), or parsing to a JSON value. -/
inductive FileState where
  | missing
  | unreadable
  | parsed (j : JVal)
deriving BEq, Repr

/-- `json.dumps` of a documented-shape record, up to parsing. -/
def cfgToJson (c : Cfg) : JVal :=
  JVal.jObj
    [("borderless", JVal.jBool c.borderless),
     ("always_on_top", JVal.jBool c.always_on_top),
     ("title_substrings", JVal.jArr (c.title_substrings.map JVal.jStr))]

/-- `save_config`: serialize and overwrite the file (write errors are
swallowed; the model's environment is the file content, writes to a
writable path succeed). -/
def save_config (c : Cfg) (_fs : FileState) : FileState :=
  FileState.parsed (cfgToJson c)

/-- `load_config`: return the parsed file content if the file exists and
parses; otherwise fall through (swallowing any read/parse exception) to
`DEFAULT_CFG.copy()`, write it out, and return it.  Total: it never
raises to its caller. -/
def load_config (fs : FileState) : JVal × FileState :=
  match fs with
  | FileState.parsed j => (j, fs)
  | _ => (cfgToJson DEFAULT_CFG, save_config DEFAULT_CFG fs)

/-- Reading a documented-shape record back out of a loaded JSON value
(field-for-field decoding; `none` if the value is not of the documented
shape).  This is the spec's notion of "record equal field-for-field". -/
def decodeStrs : List JVal → Option (List String)
  | [] => some []
  | JVal.jStr s :: t => (decodeStrs t).map (fun l => s :: l)
  | _ => none

def jsonToCfg : JVal → Option Cfg
  | JVal.jObj [(k1, JVal.jBool b), (k2, JVal.jBool t), (k3, JVal.jArr xs)] =>
    if k1 = "borderless" ∧ k2 = "always_on_top" ∧ k3 = "title_substrings" then
      (decodeStrs xs).map
        (fun l => { borderless := b, always_on_top := t, title_substrings := l })
    else none
  | _ => none

/-! ## Helper lemmas -/

theorem decodeStrs_map (l : List String) : decodeStrs (l.map JVal.jStr) = some l := by
  induction l with
  | nil => rfl
  | cons s t ih => simp [decodeStrs, ih]

theorem mem_of_mem_dedupeAux (l : List Nat) :
    ∀ (seen : List Nat) (x : Nat), x ∈ dedupeAux seen l → x ∈ l := by
  induction l with
  | nil => intro seen x hx; simp [dedupeAux] at hx
  | cons a t ih =>
    intro seen x hx
    rw [dedupeAux] at hx
    by_cases hc : seen.contains a = true
    · simp only [hc, if_true] at hx
      exact List.mem_cons_of_mem a (ih seen x hx)
    · simp only [hc, if_false, Bool.false_eq_true] at hx
      rcases List.mem_cons.mp hx with h | h
      · exact h ▸ List.mem_cons_self a t
      · exact List.mem_cons_of_mem a (ih (a :: seen) x h)

theorem mem_of_mem_dedupe {l : List Nat} {x : Nat} (hx : x ∈ dedupe l) : x ∈ l :=
  mem_of_mem_dedupeAux l [] x hx

theorem activeSubstrs_cons_empty (cfg : Cfg) :
    activeSubstrs { cfg with title_substrings := "" :: cfg.title_substrings } =
      activeSubstrs cfg := by
  have h : "".isEmpty = true := rfl
  simp [activeSubstrs, List.filter_cons, h]

theorem activeSubstrs_filter (cfg : Cfg) :
    activeSubstrs
        { cfg with title_substrings := cfg.title_substrings.filter (fun s => !s.isEmpty) } =
      activeSubstrs cfg := by
  simp [activeSubstrs, List.filter_filter]

theorem primary_matches_congr {c1 c2 : Cfg} (h : activeSubstrs c1 = activeSubstrs c2)
    (env : Env) : primary_matches c1 env = primary_matches c2 env := by
  simp [primary_matches, h]

theorem find_congr {c1 c2 : Cfg} (h : activeSubstrs c1 = activeSubstrs c2) (env : Env) :
    find_uxplay_windows c1 env = find_uxplay_windows c2 env := by
  simp only [find_uxplay_windows, primary_matches_congr h]

/-! ## Shared concrete fixtures for witnesses -/

/-- An environment with no windows and no psutil. -/
def envEmpty : Env := { windows := [], procs := none, setStyleOk := fun _ => true }

/-- A state with no readable styles, no recorded originals, empty log. -/
def stEmpty : TrayState := { styles := fun _ => none, origStyles := [], log := [] }

/-! ## Claims -/

/-- C3: for every file state in which the preference file is missing, or
exists but cannot be read or parsed as JSON, `load()` returns the
hardcoded default record `{borderless: false, always_on_top: false,
title_substrings: ["Direct3D11 renderer"]}`, writes that default record
out to the file, and never raises (the model function is total: every
read/parse exception is handled inside it). -/
theorem C3_load_defaults_on_bad_file (fs : FileState)
    (h : fs = FileState.missing ∨ fs = FileState.unreadable) :
    load_config fs =
      (cfgToJson
         { borderless := false, always_on_top := false,
           title_substrings := ["Direct3D11 renderer"] },
       FileState.parsed (cfgToJson DEFAULT_CFG)) := by
  rcases h with h | h <;> subst h <;> rfl

/-- Witness for C3 at the concrete missing-file state. -/
theorem C3_witness :
    (FileState.missing = FileState.missing ∨ FileState.missing = FileState.unreadable) ∧
    load_config FileState.missing =
      (cfgToJson
         { borderless := false, always_on_top := false,
           title_substrings := ["Direct3D11 renderer"] },
       FileState.parsed (cfgToJson DEFAULT_CFG)) :=
  ⟨Or.inl rfl, C3_load_defaults_on_bad_file FileState.missing (Or.inl rfl)⟩

/-- C4: for every preference record of the documented shape and every
prior file state (the path being writable, as in the model), `save`
followed by `load` returns exactly the saved record: the loaded JSON
value is the serialization of the record, and decoding it field-for-field
gives the record back. -/
theorem C4_save_load_roundtrip (c : Cfg) (fs : FileState) :
    (load_config (save_config c fs)).1 = cfgToJson c ∧
    jsonToCfg (load_config (save_config c fs)).1 = some c := by
  refine ⟨rfl, ?_⟩
  show jsonToCfg (cfgToJson c) = some c
  simp [jsonToCfg, cfgToJson, decodeStrs_map]

/-- C6: whenever the window locator returns zero handles, one reapply
cycle is a perfect no-op: the returned state equals the input state, so
no style read, no style write, no z-order call is logged and the
original-style map is untouched (and the preference record is never
written by this function at all). -/
theorem C6_skip_when_no_windows (env : Env) (cfg : Cfg) (st : TrayState)
    (hnone : find_uxplay_windows cfg env = []) :
    apply_settings_once env cfg st = st := by
  simp [apply_settings_once, hnone]

/-- Witness for C6: an environment with no windows yields no handles and
an unchanged state. -/
theorem C6_witness :
    find_uxplay_windows DEFAULT_CFG envEmpty = [] ∧
    apply_settings_once envEmpty DEFAULT_CFG stEmpty = stEmpty :=
  ⟨rfl, C6_skip_when_no_windows envEmpty DEFAULT_CFG stEmpty rfl⟩

/-- C8: calling `restore_style` on a handle with no recorded entry in
the original-style map is a perfect no-op: the state (styles, map, and
operation log) is returned unchanged, so nothing is written to the
window. -/
theorem C8_restore_unrecorded_noop (env : Env) (st : TrayState) (h : Nat)
    (hnone : st.origStyles.lookup h = none) :
    restore_style env st h = st := by
  simp [restore_style, hnone]

/-- Witness for C8 at a concrete state with an empty original-style map. -/
theorem C8_witness :
    stEmpty.origStyles.lookup 1 = none ∧ restore_style envEmpty stEmpty 1 = stEmpty :=
  ⟨rfl, C8_restore_unrecorded_noop envEmpty stEmpty 1 rfl⟩

/-- C9: when the style of a handle cannot be read, `make_borderless`
returns without raising (the function is total), creates no entry in the
original-style map, writes no style (the styles function is unchanged),
and the log gains only the attempted read — no write or reposition
call. -/
theorem C9_failed_read_no_pollution (env : Env) (st : TrayState) (h : Nat)
    (hnone : st.styles h = none) :
    (make_borderless env st h).origStyles = st.origStyles ∧
    (make_borderless env st h).styles = st.styles ∧
    (make_borderless env st h).log = st.log ++ [Op.getStyleOp h] := by
  simp [make_borderless, getStyle, hnone]

/-- Witness for C9 at a concrete state where no style is readable. -/
theorem C9_witness :
    stEmpty.styles 1 = none ∧
    ((make_borderless envEmpty stEmpty 1).origStyles = stEmpty.origStyles ∧
     (make_borderless envEmpty stEmpty 1).styles = stEmpty.styles ∧
     (make_borderless envEmpty stEmpty 1).log = stEmpty.log ++ [Op.getStyleOp 1]) :=
  ⟨rfl, C9_failed_read_no_pollution envEmpty stEmpty 1 rfl⟩

/-- C10: empty-string entries in `title_substrings` are filtered out
before matching: prepending an empty substring to the configuration
changes nothing about the locator's result, and filtering all empty
entries away changes nothing either — so an empty entry never causes the
primary scan to match every visible titled window. -/
theorem C10_empty_substring_filtered (cfg : Cfg) (env : Env) :
    find_uxplay_windows { cfg with title_substrings := "" :: cfg.title_substrings } env =
        find_uxplay_windows cfg env ∧
    find_uxplay_windows
        { cfg with title_substrings := cfg.title_substrings.filter (fun s => !s.isEmpty) } env =
      find_uxplay_windows cfg env :=
  ⟨find_congr (activeSubstrs_cons_empty cfg) env,
   find_congr (activeSubstrs_filter cfg) env⟩

/-! ## Bit-level facts for the borderless mask -/

/-- The bit positions of `WS_MAXIMIZEBOX`, `WS_MINIMIZEBOX`,
`WS_THICKFRAME`, `WS_SYSMENU` and the two bits of `WS_CAPTION`
(`WS_BORDER`, `WS_DLGFRAME`). -/
def maskBits : List Nat := [16, 17, 18, 19, 22, 23]

theorem testBit_pyAndNot (a b i : Nat) :
    (pyAndNot a b).testBit i = (a.testBit i && !(b.testBit i)) := by
  unfold pyAndNot
  rw [Nat.testBit_xor, Nat.testBit_land]
  cases a.testBit i <;> cases b.testBit i <;> rfl

theorem STYLE_CLEAR_MASK_testBit (i : Nat) :
    STYLE_CLEAR_MASK.testBit i = decide (i ∈ maskBits) := by
  have hmask : STYLE_CLEAR_MASK = 0xCF0000 := by decide
  rw [hmask]
  rcases Nat.lt_or_ge i 24 with hlt | hge
  · interval_cases i <;> decide
  · have h2 : (0xCF0000 : Nat) < 2 ^ i :=
      lt_of_lt_of_le (by norm_num) (Nat.pow_le_pow_right (by norm_num) hge)
    rw [Nat.testBit_eq_false_of_lt h2]
    have hnot : i ∉ maskBits := by
      intro hmem
      simp only [maskBits, List.mem_cons, List.not_mem_nil] at hmem
      rcases hmem with h | h | h | h | h | h | h
      all_goals first | omega | exact h
    simp [hnot]

/-- C5: on a handle with readable style `s` (and a succeeding
`SetWindowLong`), `make_borderless` writes exactly
`s & ~(WS_CAPTION | WS_THICKFRAME | WS_MINIMIZEBOX | WS_MAXIMIZEBOX |
WS_SYSMENU)`: every bit of the mask (positions 16, 17, 18, 19, 22, 23)
is cleared in the new bitmask and every other bit keeps its old
value. -/
theorem C5_borderless_clears_exact_bits (env : Env) (st : TrayState) (h s : Nat)
    (hstyle : st.styles h = some s) (hok : env.setStyleOk h = true) :
    (make_borderless env st h).styles h = some (pyAndNot s STYLE_CLEAR_MASK) ∧
    (∀ i, i ∈ maskBits → (pyAndNot s STYLE_CLEAR_MASK).testBit i = false) ∧
    (∀ i, i ∉ maskBits → (pyAndNot s STYLE_CLEAR_MASK).testBit i = s.testBit i) := by
  refine ⟨?_, ?_, ?_⟩
  · simp [make_borderless, getStyle, hstyle, setStyle, hok]
  · intro i hi
    rw [testBit_pyAndNot, STYLE_CLEAR_MASK_testBit]
    simp [hi]
  · intro i hi
    rw [testBit_pyAndNot, STYLE_CLEAR_MASK_testBit]
    simp [hi]

/-- A concrete state whose handle 1 has style `0x00CF0013`
(all five mask bits set, plus bits 0, 1, 4). -/
def stC5 : TrayState :=
  { styles := fun k => if k = 1 then some 0x00CF0013 else none
    origStyles := []
    log := [] }

/-- Witness for C5 at handle 1 with style `0x00CF0013`. -/
theorem C5_witness :
    stC5.styles 1 = some 0x00CF0013 ∧ envEmpty.setStyleOk 1 = true ∧
    ((make_borderless envEmpty stC5 1).styles 1 =
        some (pyAndNot 0x00CF0013 STYLE_CLEAR_MASK) ∧
     (∀ i, i ∈ maskBits → (pyAndNot 0x00CF0013 STYLE_CLEAR_MASK).testBit i = false) ∧
     (∀ i, i ∉ maskBits →
        (pyAndNot 0x00CF0013 STYLE_CLEAR_MASK).testBit i = Nat.testBit 0x00CF0013 i)) :=
  ⟨rfl, rfl, C5_borderless_clears_exact_bits envEmpty stC5 1 0x00CF0013 rfl rfl⟩

/-! ## Original-style bookkeeping lemmas (towards C2) -/

/-- The first `make_borderless` on a fresh handle records the read style
in `_original_styles` (whatever the outcome of the write). -/
theorem make_borderless_records (env : Env) (st : TrayState) (h s : Nat)
    (hstyle : st.styles h = some s) (hfresh : st.origStyles.lookup h = none) :
    (make_borderless env st h).origStyles = (h, s) :: st.origStyles := by
  by_cases hok : env.setStyleOk h <;>
    simp [make_borderless, getStyle, hstyle, setStyle, hok, hfresh]

/-- Once a handle has a recorded original, `make_borderless` never
touches `_original_styles` again (the second call must not overwrite the
recorded original). -/
theorem make_borderless_keeps_original (env : Env) (st : TrayState) (h : Nat)
    (hrec : (st.origStyles.lookup h).isNone = false) :
    (make_borderless env st h).origStyles = st.origStyles := by
  rcases hst : st.styles h with _ | style
  · simp [make_borderless, getStyle, hst]
  · by_cases hok : env.setStyleOk h <;>
      simp [make_borderless, getStyle, hst, setStyle, hok, hrec]

/-- `n` consecutive `make_borderless` calls on the same handle. -/
def iterMake (env : Env) (h : Nat) : Nat → TrayState → TrayState
  | 0, st => st
  | Nat.succ n, st => iterMake env h n (make_borderless env st h)

theorem iterMake_keeps_original (env : Env) (h : Nat) (n : Nat) :
    ∀ st : TrayState, (st.origStyles.lookup h).isNone = false →
      (iterMake env h n st).origStyles = st.origStyles := by
  induction n with
  | zero => intro st hst; rfl
  | succ n ih =>
    intro st hst
    rw [iterMake]
    have hpres := make_borderless_keeps_original env st h hst
    rw [ih _ (by rw [hpres]; exact hst), hpres]

/-- C2: starting from a handle with readable style `s0` and no recorded
original (and a succeeding `SetWindowLong`), any run of one or more
consecutive `make_borderless` calls followed by `restore_style` puts the
handle's style bitmask back to exactly `s0`: the first call records
`s0`, later calls do not overwrite the record, and the restore writes
`s0` back and discards the record. -/
theorem C2_borderless_restore_roundtrip (env : Env) (st : TrayState) (h s0 n : Nat)
    (hstyle : st.styles h = some s0) (hfresh : st.origStyles.lookup h = none)
    (hok : env.setStyleOk h = true) :
    (restore_style env (iterMake env h (n + 1) st) h).styles h = some s0 ∧
    (restore_style env (iterMake env h (n + 1) st) h).origStyles.lookup h = none := by
  have h1 : (make_borderless env st h).origStyles = (h, s0) :: st.origStyles :=
    make_borderless_records env st h s0 hstyle hfresh
  have h2 : (iterMake env h (n + 1) st).origStyles = (h, s0) :: st.origStyles := by
    rw [iterMake, iterMake_keeps_original env h n _ (by rw [h1]; simp [List.lookup]), h1]
  have hlook : (iterMake env h (n + 1) st).origStyles.lookup h = some s0 := by
    rw [h2]; simp [List.lookup]
  have herase :
      (iterMake env h (n + 1) st).origStyles.eraseP (fun p => p.1 == h) = st.origStyles := by
    rw [h2]; simp [List.eraseP_cons]
  constructor
  · simp [restore_style, hlook, setStyle, hok]
  · simp [restore_style, hlook, setStyle, hok, herase, hfresh]

/-- Witness for C2: handle 1 with style `0x00CF0013`, two consecutive
`make_borderless` calls, then one restore. -/
theorem C2_witness :
    stC5.styles 1 = some 0x00CF0013 ∧ stC5.origStyles.lookup 1 = none ∧
    envEmpty.setStyleOk 1 = true ∧
    ((restore_style envEmpty (iterMake envEmpty 1 2 stC5) 1).styles 1 =
        some 0x00CF0013 ∧
     (restore_style envEmpty (iterMake envEmpty 1 2 stC5) 1).origStyles.lookup 1 = none) :=
  ⟨rfl, rfl, rfl, C2_borderless_restore_roundtrip envEmpty stC5 1 0x00CF0013 1 rfl rfl rfl⟩

/-! ## Log-monotonicity lemmas (towards C7)

Every style/topmost operation only appends to the operation log, so an
op once issued stays in the log however later handles fare. -/

theorem mem_log_make_borderless (env : Env) (st : TrayState) (h : Nat) (x : Op)
    (hx : x ∈ st.log) : x ∈ (make_borderless env st h).log := by
  rcases hst : st.styles h with _ | style
  · simp only [make_borderless, getStyle, hst]
    exact List.mem_append_left _ hx
  · by_cases hfr : (st.origStyles.lookup h).isNone <;> by_cases hok : env.setStyleOk h <;>
      simp only [make_borderless, getStyle, hst, setStyle, hok, hfr, if_true, if_false,
        Bool.false_eq_true, List.append_assoc] <;>
      simp_all [List.mem_append]

theorem mem_log_restore_style (env : Env) (st : TrayState) (h : Nat) (x : Op)
    (hx : x ∈ st.log) : x ∈ (restore_style env st h).log := by
  rcases hl : st.origStyles.lookup h with _ | orig
  · simp only [restore_style, hl]
    exact hx
  · by_cases hok : env.setStyleOk h <;>
      simp only [restore_style, hl, setStyle, hok, if_true, if_false, Bool.false_eq_true] <;>
      simp_all [List.mem_append]

theorem mem_log_apply_handle (env : Env) (cfg : Cfg) (st : TrayState) (k : Nat) (x : Op)
    (hx : x ∈ st.log) : x ∈ (apply_handle env cfg st k).log := by
  unfold apply_handle set_topmost
  by_cases hb : cfg.borderless <;> simp only [hb, if_true, if_false, Bool.false_eq_true]
  · exact List.mem_append_left _ (mem_log_make_borderless env st k x hx)
  · exact List.mem_append_left _ (mem_log_restore_style env st k x hx)

theorem mem_log_foldl (env : Env) (cfg : Cfg) :
    ∀ (l : List Nat) (st : TrayState) (x : Op), x ∈ st.log →
      x ∈ (l.foldl (apply_handle env cfg) st).log := by
  intro l
  induction l with
  | nil => intro st x hx; exact hx
  | cons a t ih =>
    intro st x hx
    rw [List.foldl_cons]
    exact ih _ x (mem_log_apply_handle env cfg st a x hx)

/-- Running the per-handle body on `k` always issues `k`'s
`SetWindowPos` topmost call, whatever became of the style operations. -/
theorem topmost_in_apply_handle (env : Env) (cfg : Cfg) (st : TrayState) (k : Nat) :
    Op.topmostOp k cfg.always_on_top ∈ (apply_handle env cfg st k).log := by
  unfold apply_handle set_topmost
  by_cases hb : cfg.borderless <;> simp [hb, List.mem_append]

theorem topmost_in_foldl (env : Env) (cfg : Cfg) :
    ∀ (l : List Nat) (st : TrayState) (h : Nat), h ∈ l →
      Op.topmostOp h cfg.always_on_top ∈ (l.foldl (apply_handle env cfg) st).log := by
  intro l
  induction l with
  | nil => intro st h hx; simp at hx
  | cons a t ih =>
    intro st h hx
    rw [List.foldl_cons]
    rcases List.mem_cons.mp hx with rfl | hx
    · exact mem_log_foldl env cfg t _ _ (topmost_in_apply_handle env cfg st h)
    · exact ih _ h hx

/-- C7: whatever OS failures any individual handle's style or z-order
operations hit (every `setStyleOk` valuation), `apply_settings_once`
runs the per-handle body on every located handle: each located handle's
topmost `SetWindowPos` call is in the final log.  The function is total,
so no per-handle exception propagates out of it or can terminate the
reapply loop. -/
theorem C7_per_handle_isolation (env : Env) (cfg : Cfg) (st : TrayState) (h : Nat)
    (hmem : h ∈ find_uxplay_windows cfg env) :
    Op.topmostOp h cfg.always_on_top ∈ (apply_settings_once env cfg st).log := by
  unfold apply_settings_once
  have hne : (find_uxplay_windows cfg env).isEmpty = false := by
    cases hl : find_uxplay_windows cfg env
    · rw [hl] at hmem; simp at hmem
    · rfl
  simp only [hne, Bool.false_eq_true, if_false]
  exact topmost_in_foldl env cfg _ st h hmem

/-- A configuration matching any title containing `"u"`, with
borderless mode on. -/
def cfgC7 : Cfg := { borderless := true, always_on_top := false, title_substrings := ["u"] }

/-- Two matching visible windows; `SetWindowLong` fails for handle 1, so
handle 1's borderless write raises and is swallowed. -/
def envC7 : Env :=
  { windows := [⟨1, "u1", true, 10⟩, ⟨2, "u2", true, 10⟩]
    procs := none
    setStyleOk := fun k => k != 1 }

/-- Both handles have a readable style. -/
def stC7 : TrayState :=
  { styles := fun _ => some 0x00CF0000, origStyles := [], log := [] }

/-- Witness for C7: handle 1's style write fails, handle 2 (later in
the list) is still processed. -/
theorem C7_witness :
    2 ∈ find_uxplay_windows cfgC7 envC7 ∧
    Op.topmostOp 2 cfgC7.always_on_top ∈ (apply_settings_once envC7 cfgC7 stC7).log :=
  ⟨by decide, C7_per_handle_isolation envC7 cfgC7 stC7 2 (by decide)⟩

/-! ## The locator's guarantee (C1) -/

/-- Handle `h` belongs to some enumerated window whose lowercased title
contains at least one configured (lowercased, non-empty) substring —
the property the claim asserts of every returned handle. -/
def titleMatchesB (cfg : Cfg) (env : Env) (h : Nat) : Bool :=
  env.windows.any (fun w =>
    w.hwnd == h && (activeSubstrs cfg).any (fun sub => strContains (strLower w.title) sub))

/-- Handle `h` is producible by the process-name fallback: psutil is
available, some listed process has executable name `uxplay.exe`/`uxplay`
(case-insensitively), a visible window with this handle belongs to that
process, and the handle's window text is non-empty. -/
def fallbackOwned (env : Env) (h : Nat) : Prop :=
  ∃ ps, env.procs = some ps ∧ ∃ p, p ∈ ps ∧
    (strLower p.name = "uxplay.exe" ∨ strLower p.name = "uxplay") ∧
    (∃ w, w ∈ env.windows ∧ w.hwnd = h ∧ w.pid = p.pid ∧ w.visible = true) ∧
    (getWindowText env h).isEmpty = false

theorem titleMatches_of_mem_primary {cfg : Cfg} {env : Env} {h : Nat}
    (hmem : h ∈ primary_matches cfg env) : titleMatchesB cfg env h = true := by
  simp only [primary_matches, List.mem_map] at hmem
  rcases hmem with ⟨p, hp, rfl⟩
  rcases List.mem_filter.mp hp with ⟨hp_enum, hp_pred⟩
  simp only [enum_visible_windows, List.mem_map] at hp_enum
  rcases hp_enum with ⟨w, hw_mem, rfl⟩
  simp only [titleMatchesB, List.any_eq_true]
  refine ⟨w, List.mem_of_mem_filter hw_mem, ?_⟩
  simp only [Bool.and_eq_true, beq_self_eq_true, true_and]
  exact hp_pred

theorem fallbackOwned_of_mem {env : Env} {ps : List Process} {h : Nat}
    (hps : env.procs = some ps) (hmem : h ∈ ps.flatMap (fallback_for_proc env)) :
    fallbackOwned env h := by
  rcases List.mem_flatMap.mp hmem with ⟨p, hp, hh⟩
  refine ⟨ps, hps, p, hp, ?_⟩
  unfold fallback_for_proc at hh
  by_cases hname : strLower p.name = "uxplay.exe" ∨ strLower p.name = "uxplay"
  · rw [if_pos hname] at hh
    rcases List.mem_filter.mp hh with ⟨hacc, htitle⟩
    rcases List.mem_map.mp hacc with ⟨w, hw_filter, rfl⟩
    rcases List.mem_filter.mp hw_filter with ⟨hw_mem, hw_cond⟩
    simp only [Bool.and_eq_true, beq_iff_eq] at hw_cond
    have htitle2 : (getWindowText env w.hwnd).isEmpty = false := by
      simpa using htitle
    exact ⟨hname, ⟨w, hw_mem, rfl, hw_cond.1, hw_cond.2⟩, htitle2⟩
  · rw [if_neg hname] at hh
    simp at hh

/-- C1, corrected part: every handle the locator returns either has a
(lowercased) title containing a configured substring, or was produced by
the process-name fallback — which only runs when the primary scan found
nothing — as a visible, non-empty-titled window of a process named
`uxplay`/`uxplay.exe`; and when the primary scan finds nothing and
psutil is unavailable, the locator returns the empty list (and, being
total, raises nothing). -/
theorem C1_locator_guarantee (cfg : Cfg) (env : Env) :
    (∀ h ∈ find_uxplay_windows cfg env,
       titleMatchesB cfg env h = true ∨
       (primary_matches cfg env = [] ∧ fallbackOwned env h)) ∧
    (primary_matches cfg env = [] → env.procs = none →
       find_uxplay_windows cfg env = []) := by
  constructor
  · intro h hmem
    simp only [find_uxplay_windows] at hmem
    have hmem2 := mem_of_mem_dedupe hmem
    cases hempty : (primary_matches cfg env).isEmpty with
    | false =>
      rw [hempty] at hmem2
      simp only [Bool.false_eq_true, if_false] at hmem2
      exact Or.inl (titleMatches_of_mem_primary hmem2)
    | true =>
      rw [hempty] at hmem2
      have hpnil : primary_matches cfg env = [] := List.isEmpty_iff.mp hempty
      simp only [if_true] at hmem2
      cases hprocs : env.procs with
      | none =>
        rw [hprocs] at hmem2
        rw [hpnil] at hmem2
        simp at hmem2
      | some ps =>
        rw [hprocs] at hmem2
        simp only [hpnil, List.nil_append] at hmem2
        exact Or.inr ⟨hpnil, fallbackOwned_of_mem hprocs hmem2⟩
  · intro hp hn
    simp only [find_uxplay_windows, hp, hn]
    rfl

/-- A configuration whose only substring is `"x"`. -/
def cfgC1 : Cfg := { borderless := false, always_on_top := false, title_substrings := ["x"] }

/-- One visible window titled `"abc"` (no `"x"` in it) owned by pid 5,
and a psutil process list with `uxplay.exe` as pid 5. -/
def envC1 : Env :=
  { windows := [⟨1, "abc", true, 5⟩]
    procs := some [⟨5, "uxplay.exe"⟩]
    setStyleOk := fun _ => true }

/-- Counterexample to C1 as stated: the locator returns handle 1 via the
process-name fallback although no configured substring occurs in its
lowercased title `"abc"`. -/
theorem C1_counterexample :
    1 ∈ find_uxplay_windows cfgC1 envC1 ∧ titleMatchesB cfgC1 envC1 1 = false := by
  decide

/-- Witness for C1's corrected statement: the fallback-produced handle 1
satisfies the amended disjunction, and with no psutil and no match the
locator returns `[]`. -/
theorem C1_witness :
    (titleMatchesB cfgC1 envC1 1 = true ∨
     (primary_matches cfgC1 envC1 = [] ∧ fallbackOwned envC1 1)) ∧
    find_uxplay_windows cfgC1 envEmpty = [] :=
  ⟨(C1_locator_guarantee cfgC1 envC1).1 1 (by decide),
   (C1_locator_guarantee cfgC1 envEmpty).2 rfl rfl⟩

end Tray
